import Mathlib

/-!
Verification development for the `envado` environment-variable validation
library.  The definitions below are a shallow embedding of the TypeScript
source.  Two pipeline variants exist in the repository and both are embedded:

* namespace `Index` — the variant in `src/src/index.ts` (per-field results
  carrying error lists, all errors batched by `parse`);
* namespace `Full` — the browser-aware variant embedded in
  `src/unnamed/part_000` (lines 133-752), which supports default values and
  throws the custom error classes of `src/unnamed/part_008`
  (`MissingEnvVariableError`, `TransformationError`, `ValidationError`,
  `SchemaError`) so that structural failures abort orchestration.

Dynamically-typed JavaScript values are modelled by the inductive `JSVal`;
JavaScript numbers are modelled by `Rat` (exact on the decimal literals the
library manipulates) with a separate `vnan` constructor for `NaN`; thrown
JavaScript exceptions are modelled by `JSException` (name and message), and
fallible computations return `Except`.
-/

namespace Envado

/-- Model of a JavaScript runtime value as manipulated by the library:
strings, numbers (`Rat`, with `NaN` as a separate constructor), booleans,
arrays, plain objects, `null` and `undefined`. -/
inductive JSVal where
  | vstr (s : String)
  | vnum (q : Rat)
  | vnan
  | vbool (b : Bool)
  | varr (xs : List JSVal)
  | vobj (fields : List (String × JSVal))
  | vnull
  | vundef
deriving Repr

/-- A thrown JavaScript exception: constructor name and message
(`error.name` / `error.message`). -/
structure JSException where
  name : String
  message : String
deriving Repr, DecidableEq

/-- `typeof` on the modelled values. -/
def jsTypeof : JSVal → String
  | .vstr _ => "string"
  | .vnum _ => "number"
  | .vnan => "number"
  | .vbool _ => "boolean"
  | .varr _ => "object"
  | .vobj _ => "object"
  | .vnull => "object"
  | .vundef => "undefined"

/-- Drop the leading whitespace characters. -/
def trimLeftChars : List Char → List Char
  | [] => []
  | c :: cs => if c.isWhitespace then trimLeftChars cs else c :: cs

/-- JavaScript `String.prototype.trim` (whitespace at both ends removed),
implemented on the character list so that it evaluates structurally. -/
def jsTrim (s : String) : String :=
  String.mk ((trimLeftChars (trimLeftChars s.toList).reverse).reverse)

/-- JavaScript `String.prototype.toLowerCase` on the ASCII fragment. -/
def jsToLower (s : String) : String :=
  String.mk (s.toList.map Char.toLower)

/-- Strip `sep` from the front of `cs` (`none` when `cs` does not start
with `sep`). -/
def stripSep : List Char → List Char → Option (List Char)
  | [], rest => some rest
  | _ :: _, [] => none
  | a :: as, c :: cs => if a = c then stripSep as cs else none

/-- Fuel-driven splitting of a character list on a separator (the fuel is
an upper bound on the number of steps; it never runs out for a non-empty
separator when initialized with the list length plus one). -/
def splitChars (sep : List Char) : Nat → List Char → List Char →
    List (List Char)
  | 0, acc, cs => [acc.reverse ++ cs]
  | _ + 1, acc, [] => [acc.reverse]
  | fuel + 1, acc, c :: cs =>
      match stripSep sep (c :: cs) with
      | some rest => acc.reverse :: splitChars sep fuel [] rest
      | none => splitChars sep fuel (c :: acc) cs

/-- JavaScript `String.prototype.split` on a non-empty separator string
(the empty-separator behaviour, splitting between every character, is
outside the fragment the library exercises). -/
def jsSplit (s sep : String) : List String :=
  (splitChars sep.toList (s.toList.length + 1) [] s.toList).map String.mk

/-- Numeric value of a list of decimal digit characters. -/
def digitsVal (cs : List Char) : Nat :=
  cs.foldl (fun a c => a * 10 + (c.toNat - 48)) 0

/-- The decimal-literal fragment of JavaScript string-to-number coercion
(`Number(s)`): optional surrounding whitespace, empty string is `0`,
optional sign, decimal digits with at most one point.  `none` models `NaN`.
(Hexadecimal, exponent and `Infinity` forms are outside the fragment the
library's inputs exercise.) -/
def jsStringToNumber (s : String) : Option Rat :=
  let t := jsTrim s
  if t = "" then some 0
  else
    let sb : Int × List Char :=
      match t.toList with
      | '-' :: rest => (-1, rest)
      | '+' :: rest => (1, rest)
      | cs => (1, cs)
    match splitChars ['.'] (sb.2.length + 1) [] sb.2 with
    | [intP] =>
        if intP ≠ [] ∧ intP.all Char.isDigit then
          some (mkRat (sb.1 * (digitsVal intP : Int)) 1)
        else none
    | [intP, fracP] =>
        if intP = [] ∧ fracP = [] then none
        else if intP.all Char.isDigit ∧ fracP.all Char.isDigit then
          some (mkRat (sb.1 *
            ((digitsVal intP * 10 ^ fracP.length + digitsVal fracP : Nat) : Int))
            (10 ^ fracP.length))
        else none
    | _ => none

/-- JavaScript `<` between a runtime value and a number; `NaN` (and
`undefined`, which coerces to `NaN`) compares false.  Array/object operands
coerce through strings and are outside the fragment the validators reach. -/
def jsLt (v : JSVal) (q : Rat) : Bool :=
  match v with
  | .vnum x => decide (x < q)
  | .vbool b => decide ((if b then (1 : Rat) else 0) < q)
  | .vnull => decide ((0 : Rat) < q)
  | .vstr s =>
      match jsStringToNumber s with
      | some x => decide (x < q)
      | none => false
  | _ => false

/-- JavaScript `>` between a runtime value and a number (see `jsLt`). -/
def jsGt (v : JSVal) (q : Rat) : Bool :=
  match v with
  | .vnum x => decide (q < x)
  | .vbool b => decide (q < (if b then (1 : Rat) else 0))
  | .vnull => decide (q < (0 : Rat))
  | .vstr s =>
      match jsStringToNumber s with
      | some x => decide (q < x)
      | none => false
  | _ => false

/-- Display of a modelled value inside a template string
(`${value}`), on the fragment the library's messages exercise. -/
def jsDisplay : JSVal → String
  | .vstr s => s
  | .vnum q => if q.den = 1 then toString q.num else toString q
  | .vnan => "NaN"
  | .vbool b => if b then "true" else "false"
  | .vnull => "null"
  | .vundef => "undefined"
  | .varr _ => "[array]"
  | .vobj _ => "[object Object]"

/-- `ValidationResult` (`src/src/types.ts` line 1): a validator returns a
message or `undefined`. -/
abbrev ValidationResult := Option String

/-- A validator: inspects a value and returns an optional message; it may
also throw (`Except.error`). -/
abbrev Validator := JSVal → Except JSException ValidationResult

/-- A transformer: converts a value and may throw. -/
abbrev Transformer := JSVal → Except JSException JSVal

/-- `SchemaDefinition` (`src/src/types.ts` lines 6-13): type tag, validator
and transformer lists, declared-but-never-invoked async validators, the
`optional` flag and the optional `default` value.  The inline copy in
`src/src/index.ts` (lines 10-16) is identical except that it lacks the
`default` field; the `Index` factories always build it as `none`. -/
structure SchemaDefinition where
  type : String
  validators : List Validator
  asyncValidators : List (JSVal → ValidationResult)
  transformers : List Transformer
  optional : Bool
  default : Option JSVal

/-- `FieldResult`: the `{ value, errors }` record produced by
`validateValue`. -/
structure FieldRes where
  value : JSVal
  errors : List String
deriving Repr

instance : Inhabited FieldRes := ⟨⟨.vundef, []⟩⟩

/-- `schema.transformers.reduce((val, t) => t(val), currentValue)`: apply the
transformers left to right, each consuming the previous transformer's
output; a thrown error propagates. -/
def runTransformers : List Transformer → JSVal → Except JSException JSVal
  | [], v => .ok v
  | t :: ts, v =>
      match t v with
      | .error e => .error e
      | .ok w => runTransformers ts w

/-- `schema.validators.forEach(v => { const r = v(cv); if (r) errors.push(r) })`:
apply every validator to the same value, collecting every truthy (non-empty)
message in declaration order; a thrown error propagates. -/
def runValidators : List Validator → JSVal → Except JSException (List String)
  | [], _ => .ok []
  | f :: fs, v =>
      match f v with
      | .error e => .error e
      | .ok r =>
          match runValidators fs v with
          | .error e => .error e
          | .ok msgs =>
              .ok (match r with
                   | some m => if m = "" then msgs else m :: msgs
                   | none => msgs)

/-- JavaScript `Array.prototype.map` over a callback that may throw: the
callback runs left to right and a thrown error aborts the whole map. -/
def mapEntries {α β ε : Type} (f : α → Except ε β) : List α → Except ε (List β)
  | [] => .ok []
  | a :: l =>
      match f a with
      | .error e => .error e
      | .ok b =>
          match mapEntries f l with
          | .error e => .error e
          | .ok bs => .ok (b :: bs)

/-- The ordered list of every non-empty message the validators report on a
value (ignoring throws); used to state that validators are not
short-circuited against each other. -/
def allMessages (vs : List Validator) (v : JSVal) : List String :=
  vs.filterMap (fun f =>
    match f v with
    | .ok (some m) => if m = "" then none else some m
    | _ => none)

/-! ### Builder operations (`createSchemaBuilder`)

`src/src/index.ts` lines 451-471 and `src/unnamed/part_000` lines 525-545
(identical): the builder wraps a `SchemaDefinition` and each operation
returns a new builder around a copy of the definition with one field
replaced; the embedding exposes each operation directly on the definition
the returned builder wraps. -/

/-- `optional()`: copy the definition with `optional := true`. -/
def schemaOptional (schema : SchemaDefinition) : SchemaDefinition :=
  { schema with optional := true }

/-- `custom(validator)`: copy the definition appending one validator. -/
def schemaCustom (schema : SchemaDefinition) (validator : Validator) :
    SchemaDefinition :=
  { schema with validators := schema.validators ++ [validator] }

/-- `transform(transformer)`: copy the definition appending one
transformer. -/
def schemaTransform (schema : SchemaDefinition) (transformer : Transformer) :
    SchemaDefinition :=
  { schema with transformers := schema.transformers ++ [transformer] }

/-! ### The `number` factory

`src/src/index.ts` lines 242-296 and `src/unnamed/part_000` lines 266-321
are identical except that only the latter records `options?.default`; the
`Index` call sites instantiate the default with `none`. -/

/-- The base validator of `number()`: coerce a string operand with
`Number(...)` and reject `NaN` / non-numbers. -/
def numberBaseValidator : Validator := fun value =>
  let num := match value with
             | .vstr s =>
                 match jsStringToNumber s with
                 | some q => JSVal.vnum q
                 | none => JSVal.vnan
             | v => v
  .ok (match num with
       | .vnum _ => none
       | _ => some ("Expected number, but got " ++ jsTypeof value))

/-- The base transformer of `number()`:
`value => typeof value === "string" ? Number(value) : value`. -/
def numberBaseTransformer : Transformer := fun value =>
  .ok (match value with
       | .vstr s =>
           match jsStringToNumber s with
           | some q => JSVal.vnum q
           | none => JSVal.vnan
       | v => v)

/-- The initial schema built by `number()`. -/
def numberInitial (dflt : Option Rat) : SchemaDefinition :=
  { type := "number"
    validators := [numberBaseValidator]
    asyncValidators := []
    transformers := [numberBaseTransformer]
    optional := false
    default := dflt.map .vnum }

/-- The validator appended by `number().min(min)`. -/
def numberMinValidator (m : Rat) : Validator := fun value =>
  .ok (if jsLt value m then
         some ("Value must be greater than or equal to " ++ jsDisplay (.vnum m))
       else none)

/-- `number().min(min)`: the initial schema with one more validator. -/
def numberMin (dflt : Option Rat) (m : Rat) : SchemaDefinition :=
  { numberInitial dflt with
    validators := (numberInitial dflt).validators ++ [numberMinValidator m] }

/-- The validator appended by `number().max(max)`. -/
def numberMaxValidator (m : Rat) : Validator := fun value =>
  .ok (if jsGt value m then
         some ("Value must be less than or equal to " ++ jsDisplay (.vnum m))
       else none)

/-- `number().max(max)`: one more validator.  (The source returns the
builder itself rather than its `.schema`; this is the definition that
builder wraps.) -/
def numberMax (dflt : Option Rat) (m : Rat) : SchemaDefinition :=
  { numberInitial dflt with
    validators := (numberInitial dflt).validators ++ [numberMaxValidator m] }

/-- The validator appended by `number().port()`:
`value < 1 || value > 65535 ? "Invalid port number" : undefined`. -/
def portValidator : Validator := fun value =>
  .ok (if jsLt value 1 || jsGt value 65535 then some ("Invalid port number")
       else none)

/-- `number().port()`: the initial schema with the port validator
appended. -/
def numberPort (dflt : Option Rat) : SchemaDefinition :=
  { numberInitial dflt with
    validators := (numberInitial dflt).validators ++ [portValidator] }

end Envado

namespace Envado.Index

/-! ### The `string` factory of `src/src/index.ts` (lines 22-34)

Its base validator computes `typeof value.trim() !== "string"` with no
optional chaining: every string input trims to a string (so no message is
possible), and every non-string input lacks a callable `trim`, so the
property access / call throws a `TypeError` before a message can be
returned. -/

/-- The base validator installed by `string()` in `src/src/index.ts`. -/
def stringBaseValidator : Envado.Validator := fun value =>
  match value with
  | .vstr _ => .ok none
  | v => .error ⟨"TypeError", "value.trim is not a function (value is " ++
      Envado.jsTypeof v ++ ")"⟩

/-- The initial schema built by `string()` in `src/src/index.ts`; its
`SchemaDefinition` has no `default` field, modelled as `none`. -/
def stringInitial : Envado.SchemaDefinition :=
  { type := "string"
    validators := [stringBaseValidator]
    asyncValidators := []
    transformers := []
    optional := false
    default := none }

end Envado.Index

namespace Envado.Full

open Envado

/-! ### The `string` factory of `src/unnamed/part_000` (lines 171-264) -/

/-- The base validator installed by `string()`:
`typeof value?.trim() !== "string"`.  Optional chaining turns `null` /
`undefined` into `undefined` (yielding a message), strings trim to strings
(no message), and any other value lacks a callable `trim`, so the call
throws a `TypeError`. -/
def stringBaseValidator : Validator := fun value =>
  match value with
  | .vstr _ => .ok none
  | .vundef => .ok (some ("Expected string, but got undefined"))
  | .vnull => .ok (some ("Expected string, but got object"))
  | v => .error ⟨"TypeError", "value.trim is not a function (value is " ++
      jsTypeof v ++ ")"⟩

/-- The initial schema built by `string(options)`; `dflt` is
`options?.default`. -/
def stringInitial (dflt : Option String) : SchemaDefinition :=
  { type := "string"
    validators := [stringBaseValidator]
    asyncValidators := []
    transformers := []
    optional := false
    default := dflt.map .vstr }

/-- The validator appended by `string().oneOf(values)`:
`values.includes(value)` (strict equality, so a non-string operand is never
a member). -/
def oneOfValidator (values : List String) : Validator := fun value =>
  .ok (if (match value with
           | .vstr s => values.contains s
           | _ => false) then none
       else some ("Value must be one of: " ++ String.intercalate (", ") values))

/-- `string().oneOf(values)`. -/
def stringOneOf (dflt : Option String) (values : List String) :
    SchemaDefinition :=
  { stringInitial dflt with
    validators := (stringInitial dflt).validators ++ [oneOfValidator values] }

/-- Success of `new URL(value)` on the fragment the library exercises: the
WHATWG constructor requires a scheme (alphabetic, non-empty) followed by a
colon. -/
def canParseUrl (s : String) : Bool :=
  match jsSplit s (":") with
  | scheme :: _ :: _ => scheme ≠ "" && scheme.toList.all Char.isAlpha
  | _ => false

/-- The validator appended by `string().url()`: any failure of the URL
constructor (including the string coercion of a non-string operand) is
caught and reported as a message. -/
def urlValidator : Validator := fun value =>
  match value with
  | .vstr s => .ok (if canParseUrl s then none else some ("Invalid URL"))
  | _ => .ok (some ("Invalid URL"))

/-- `string().url()`. -/
def stringUrl (dflt : Option String) : SchemaDefinition :=
  { stringInitial dflt with
    validators := (stringInitial dflt).validators ++ [urlValidator] }

/-- The validator appended by `string().min(length)`: only string operands
are length-checked (`typeof value === "string" && value.length < length`). -/
def stringMinValidator (len : Nat) : Validator := fun value =>
  .ok (match value with
       | .vstr s =>
           if s.length < len then
             some ("String must be at least " ++ toString len ++
               " characters long")
           else none
       | _ => none)

/-- `string().min(length)`. -/
def stringMin (dflt : Option String) (len : Nat) : SchemaDefinition :=
  { stringInitial dflt with
    validators := (stringInitial dflt).validators ++ [stringMinValidator len] }

/-- The validator appended by `string().max(length)`. -/
def stringMaxValidator (len : Nat) : Validator := fun value =>
  .ok (match value with
       | .vstr s =>
           if s.length > len then
             some ("String must not exceed " ++ toString len ++ " characters")
           else none
       | _ => none)

/-- `string().max(length)`. -/
def stringMax (dflt : Option String) (len : Nat) : SchemaDefinition :=
  { stringInitial dflt with
    validators := (stringInitial dflt).validators ++ [stringMaxValidator len] }

/-- Membership in the regex class
`[a-zA-Z0-9.!#$%&'*+/=?^_`{|}~-]` of the email local part (the apostrophe,
backtick and brace characters are written by code point). -/
def isEmailLocalChar (c : Char) : Bool :=
  c.isAlpha || c.isDigit || (".!#$%&*+/=?^_~-").toList.contains c ||
    c.toNat = 39 || c.toNat = 96 || c.toNat = 123 || c.toNat = 124 ||
    c.toNat = 125

/-- Match of one domain label against
`[a-zA-Z0-9](?:[a-zA-Z0-9-]{0,61}[a-zA-Z0-9])?`: 1-63 characters, ASCII
alphanumerics and inner hyphens, alphanumeric at both ends. -/
def isDomainLabel (l : String) : Bool :=
  let cs := l.toList
  match cs with
  | [] => false
  | c :: _ =>
      c.isAlphanum && cs.length ≤ 63 &&
      cs.all (fun d => d.isAlphanum || d = '-') &&
      (match cs.getLast? with
       | some d => d.isAlphanum
       | none => false)

/-- The anchored email regex of `part_000` line 244-245: one or more
local-part characters, `@`, then one or more dot-separated domain labels. -/
def emailPatternTest (t : String) : Bool :=
  match jsSplit t ("@") with
  | [localPart, domain] =>
      localPart ≠ "" && localPart.toList.all isEmailLocalChar &&
      (jsSplit domain (".")).all isDomainLabel
  | _ => false

/-- The validator appended by `string().email()`: trim, then test the
pattern (a non-string operand makes the `trim` call throw). -/
def emailValidator : Validator := fun value =>
  match value with
  | .vstr s =>
      .ok (if emailPatternTest (jsTrim s) then none else some ("Invalid email format"))
  | v => .error ⟨"TypeError", "value.trim is not a function (value is " ++
      jsTypeof v ++ ")"⟩

/-- The transformer appended by `string().email()`:
`(value: string) => value.trim()`. -/
def trimTransformer : Transformer := fun value =>
  match value with
  | .vstr s => .ok (.vstr (jsTrim s))
  | v => .error ⟨"TypeError", "value.trim is not a function (value is " ++
      jsTypeof v ++ ")"⟩

/-- `string().email()`: appends one validator and one transformer.  (The
source returns the builder itself rather than its `.schema`; this is the
definition that builder wraps.) -/
def stringEmail (dflt : Option String) : SchemaDefinition :=
  { stringInitial dflt with
    validators := (stringInitial dflt).validators ++ [emailValidator]
    transformers := (stringInitial dflt).transformers ++ [trimTransformer] }

/-! ### The `boolean` factory (`part_000` lines 323-351) -/

/-- `booleanTransformer`: booleans pass through; strings are lowercased,
trimmed and matched against the truthy / falsy token sets; anything else
throws (`InvalidEnvVariableError("", ...)` carries the message of
`src/unnamed/part_008`'s constructor; a non-string, non-boolean operand
makes `toLowerCase` throw a `TypeError`). -/
def booleanTransformer : Transformer := fun value =>
  match value with
  | .vbool b => .ok (.vbool b)
  | .vstr s =>
      let normalized := jsTrim (jsToLower s)
      if ["true", "1", "yes"].contains normalized then .ok (.vbool true)
      else if ["false", "0", "no"].contains normalized then .ok (.vbool false)
      else .error ⟨"InvalidEnvVariableError",
        "Invalid environment variable \"\": Invalid boolean value: " ++ s⟩
  | v => .error ⟨"TypeError", "value.toLowerCase is not a function (value is "
      ++ jsTypeof v ++ ")"⟩

/-- The base validator of `boolean()`: try the transformer, report a message
if it throws. -/
def booleanBaseValidator : Validator := fun value =>
  match booleanTransformer value with
  | .ok _ => .ok none
  | .error _ => .ok (some ("Expected boolean, but got " ++ jsDisplay value))

/-- The schema built by `boolean(options)`. -/
def booleanInitial (dflt : Option Bool) : SchemaDefinition :=
  { type := "boolean"
    validators := [booleanBaseValidator]
    asyncValidators := []
    transformers := [booleanTransformer]
    optional := false
    default := dflt.map .vbool }

/-! ### The `array` factory (`part_000` lines 353-483) -/

/-- The options record of `array(options)`: `default`, `separator`
(defaulting to a comma) and `trim` (defaulting to `true`). -/
structure ArrayOptions where
  default : Option (List JSVal) := none
  separator : Option String := none
  trim : Option Bool := none

/-- `options?.separator ?? ","`. -/
def sepOf (opts : ArrayOptions) : String := opts.separator.getD ","

/-- `options?.trim ?? true`. -/
def trimOf (opts : ArrayOptions) : Bool := opts.trim.getD true

/-- `stringToArray`: split on the separator and optionally trim the
items. -/
def stringToArray (separator : String) (shouldTrim : Bool) (value : String) :
    List String :=
  let items := jsSplit value separator
  if shouldTrim then items.map jsTrim else items

/-- The base validator of `array()`: arrays and strings pass, anything else
gets a message. -/
def arrayBaseValidator : Validator := fun value =>
  .ok (match value with
       | .varr _ => none
       | .vstr _ => none
       | v => some ("Expected array or comma-separated string, but got " ++
           jsTypeof v))

/-- The base transformer of `array()`: arrays pass through, strings are
split (and optionally trimmed), other values pass through unchanged. -/
def arrayBaseTransformer (separator : String) (shouldTrim : Bool) :
    Transformer := fun value =>
  .ok (match value with
       | .varr xs => .varr xs
       | .vstr s => .varr ((stringToArray separator shouldTrim s).map .vstr)
       | v => v)

/-- The initial schema built by `array(options)`. -/
def arrayInitial (opts : ArrayOptions) : SchemaDefinition :=
  { type := "array"
    validators := [arrayBaseValidator]
    asyncValidators := []
    transformers := [arrayBaseTransformer (sepOf opts) (trimOf opts)]
    optional := false
    default := opts.default.map .varr }

/-- Inner loop of `items(...)`'s validator: first truthy message of the item
schema's validators on one element. -/
def firstItemError (vs : List Validator) (x : JSVal) :
    Except JSException ValidationResult :=
  match vs with
  | [] => .ok none
  | f :: fs =>
      match f x with
      | .error e => .error e
      | .ok (some m) => if m = "" then firstItemError fs x else .ok (some m)
      | .ok none => firstItemError fs x

/-- Outer loop of `items(...)`'s validator: first truthy message over the
elements in order. -/
def firstElemError (itemSchema : SchemaDefinition) :
    List JSVal → Except JSException ValidationResult
  | [] => .ok none
  | x :: xs =>
      match firstItemError itemSchema.validators x with
      | .error e => .error e
      | .ok (some m) => .ok (some m)
      | .ok none => firstElemError itemSchema xs

/-- The validator appended by `array().items(itemSchema)`; iterating a
non-array operand throws. -/
def validateItems (itemSchema : SchemaDefinition) : Validator := fun values =>
  match values with
  | .varr xs => firstElemError itemSchema xs
  | v => .error ⟨"TypeError", "values is not iterable (value is " ++
      jsTypeof v ++ ")"⟩

/-- `array().items(itemSchema)`. -/
def arrayItems (opts : ArrayOptions) (itemSchema : SchemaDefinition) :
    SchemaDefinition :=
  { arrayInitial opts with
    validators := (arrayInitial opts).validators ++ [validateItems itemSchema] }

/-- The validator appended by `array().min(min)`: `value.length < min`
(strings also carry a numeric `length`; on values with an `undefined`
`length` the comparison is false). -/
def arrayMinValidator (m : Nat) : Validator := fun value =>
  .ok (match value with
       | .varr xs =>
           if xs.length < m then
             some ("Array must contain at least " ++ toString m ++ " items")
           else none
       | .vstr s =>
           if s.length < m then
             some ("Array must contain at least " ++ toString m ++ " items")
           else none
       | _ => none)

/-- `array().min(min)`. -/
def arrayMin (opts : ArrayOptions) (m : Nat) : SchemaDefinition :=
  { arrayInitial opts with
    validators := (arrayInitial opts).validators ++ [arrayMinValidator m] }

/-- The validator appended by `array().max(max)`. -/
def arrayMaxValidator (m : Nat) : Validator := fun value =>
  .ok (match value with
       | .varr xs =>
           if xs.length > m then
             some ("Array must contain at most " ++ toString m ++ " items")
           else none
       | .vstr s =>
           if s.length > m then
             some ("Array must contain at most " ++ toString m ++ " items")
           else none
       | _ => none)

/-- `array().max(max)`. -/
def arrayMax (opts : ArrayOptions) (m : Nat) : SchemaDefinition :=
  { arrayInitial opts with
    validators := (arrayInitial opts).validators ++ [arrayMaxValidator m] }

/-- The transformer appended by `array().commaSeparated(options2)`: strings
are split on `options2.separator ?? separator` and trimmed per
`options2.trim ?? shouldTrim`; other values pass through. -/
def commaSepTransformer (opts : ArrayOptions) (sep2 : Option String)
    (trim2 : Option Bool) : Transformer := fun value =>
  .ok (match value with
       | .vstr s =>
           let sep := sep2.getD (sepOf opts)
           let doTrim := trim2.getD (trimOf opts)
           let parts := jsSplit s sep
           .varr ((if doTrim then parts.map jsTrim else parts).map .vstr)
       | v => v)

/-- `array().commaSeparated(options2)`: appends its transformer after the
base transformer. -/
def arrayCommaSeparated (opts : ArrayOptions) (sep2 : Option String)
    (trim2 : Option Bool) : SchemaDefinition :=
  { arrayInitial opts with
    transformers := (arrayInitial opts).transformers ++
      [commaSepTransformer opts sep2 trim2] }

/-- The transformer installed by `array().withSeparator(...)`: strings are
split on the custom separator (and optionally trimmed); arrays pass
through; any other value is wrapped in a singleton array. -/
def withSeparatorTransformer (customSeparator : String)
    (shouldTrimItems : Bool) : Transformer := fun value =>
  .ok (match value with
       | .vstr s =>
           let parts := jsSplit s customSeparator
           .varr ((if shouldTrimItems then parts.map jsTrim else parts).map
             .vstr)
       | .varr xs => .varr xs
       | v => .varr [v])

/-- `array().withSeparator(customSeparator, shouldTrimItems = true)`
(`part_000` lines 469-481): note that the built definition's `transformers`
list holds exactly the new transformer — the initial schema's transformer
list is *not* spread into it. -/
def arrayWithSeparator (opts : ArrayOptions) (customSeparator : String)
    (shouldTrimItems : Bool := true) : SchemaDefinition :=
  { arrayInitial opts with
    transformers := [withSeparatorTransformer customSeparator shouldTrimItems] }

/-! ### The `object` factory (`part_000` lines 485-523) -/

/-- The base validator of `object(...)`:
`typeof value !== "object" || value === null`. -/
def objectBaseValidator : Validator := fun value =>
  .ok (match value with
       | .vobj _ => none
       | .varr _ => none
       | .vnull => some ("Expected object, got object")
       | v => some ("Expected object, got " ++ jsTypeof v))

/-- The initial schema built by `object(schema, options)`. -/
def objectInitial (dflt : Option JSVal) : SchemaDefinition :=
  { type := "object"
    validators := [objectBaseValidator]
    asyncValidators := []
    transformers := []
    optional := false
    default := dflt }

/-- `Object.keys(value)` on the modelled values (`null` / `undefined`
throw; arrays and strings expose index keys; primitives have none). -/
def jsObjectKeys : JSVal → Except JSException (List String)
  | .vobj fs => .ok (fs.map Prod.fst)
  | .varr xs => .ok ((List.range xs.length).map toString)
  | .vstr s => .ok ((List.range s.length).map toString)
  | .vnull => .error ⟨"TypeError", "Cannot convert undefined or null to object"⟩
  | .vundef => .error ⟨"TypeError", "Cannot convert undefined or null to object"⟩
  | _ => .ok []

/-- The validator appended by `object(...).strict()`: any key of the value
not declared in the nested schema map is reported. -/
def strictValidator (nested : List (String × SchemaDefinition)) : Validator :=
  fun value =>
    match jsObjectKeys value with
    | .error e => .error e
    | .ok keys =>
        let extraKeys := keys.filter (fun k => !((nested.map Prod.fst).contains k))
        .ok (if extraKeys.length > 0 then
               some ("Unexpected keys: " ++ String.intercalate (", ") extraKeys)
             else none)

/-- `object(schema).strict()`. -/
def objectStrict (nested : List (String × SchemaDefinition))
    (dflt : Option JSVal) : SchemaDefinition :=
  { objectInitial dflt with
    validators := (objectInitial dflt).validators ++ [strictValidator nested] }

/-! ### The resolution pipeline and orchestrator of `part_000`
(lines 547-590 and 592-656) -/

/-- The custom error classes of `src/unnamed/part_008` plus a raw
(non-custom) thrown exception. -/
inductive EnvError where
  | missingEnvVariable (variableName : String)
  | transformationError (variableName : String) (message : String)
  | validationError (variableName : String) (message : String)
  | schemaError (message : String)
  | jsError (e : JSException)
deriving Repr, DecidableEq

/-- The part of `validateValue` that runs once `currentValue` is known to be
present (after the default substitution and the missing / optional checks):
transformers first (a throw becomes a `TransformationError` carrying the
field name and the thrown message), then all validators (an uncaught
validator throw propagates), then a `ValidationError` joining the collected
messages if any. -/
def resolvePresent (schema : SchemaDefinition) (currentValue : JSVal)
    (variableName : String) : Except EnvError FieldRes :=
  match runTransformers schema.transformers currentValue with
  | .error e => .error (.transformationError variableName e.message)
  | .ok cv =>
      match runValidators schema.validators cv with
      | .error e => .error (.jsError e)
      | .ok errors =>
          if errors.length > 0 then
            .error (.validationError variableName
              (String.intercalate (", ") errors))
          else .ok ⟨cv, errors⟩

/-- `validateValue` (`part_000` lines 547-590): substitute the default when
the raw value is `undefined` and a default exists; a still-`undefined`
value either resolves empty (optional) or throws `MissingEnvVariableError`;
otherwise the full transformer / validator pipeline runs on the current
value (`resolvePresent`). -/
def validateValue (schema : SchemaDefinition) (value : JSVal)
    (variableName : String) : Except EnvError FieldRes :=
  let currentValue :=
    match value, schema.default with
    | .vundef, some d => d
    | v, _ => v
  match currentValue with
  | .vundef =>
      if schema.optional then .ok ⟨.vundef, []⟩
      else .error (.missingEnvVariable variableName)
  | cv => resolvePresent schema cv variableName

/-- `const value = key in env ? env[key] : env[viteKey]` with
`viteKey = "VITE_" + key`: the raw source maps a present key to a value
(`some`) and an absent key to `none` (property access yields
`undefined`). -/
def getRaw (env : String → Option JSVal) (key : String) : JSVal :=
  match env key with
  | some v => v
  | none =>
      match env ("VITE_" ++ key) with
      | some v => v
      | none => (.vundef)

/-- One iteration of `parse`'s `map` callback: run `validateValue` and
re-throw the custom errors unchanged while wrapping any other thrown error
in a `SchemaError` naming the field. -/
def parseField (env : String → Option JSVal)
    (p : String × SchemaDefinition) : Except EnvError (String × FieldRes) :=
  match validateValue p.2 (getRaw env p.1) p.1 with
  | .ok r => .ok (p.1, r)
  | .error (.jsError e) =>
      .error (.schemaError ("Unexpected error while validating " ++ p.1 ++
        ": " ++ e.message))
  | .error err => .error err

/-- `parse` (`part_000` lines 608-655): map every declared field through
`validateValue` (a thrown error aborts the whole map), then batch any
per-field error lists into one `SchemaError` — a branch that is dead in
this variant because `validateValue` throws instead of returning a
non-empty error list — and otherwise assemble the typed result object. -/
def parse (fields : List (String × SchemaDefinition))
    (env : String → Option JSVal) : Except EnvError (List (String × JSVal)) :=
  match mapEntries (parseField env) fields with
  | .error e => .error e
  | .ok results =>
      let errs := ((results.filter (fun kr => kr.2.errors.length > 0)).map
        (fun kr => kr.2.errors.map (fun e => kr.1 ++ ": " ++ e))).flatten
      if errs.length > 0 then
        .error (.schemaError ("Environment validation failed:\n" ++
          String.intercalate ("\n") errs))
      else .ok (results.map (fun kr => (kr.1, kr.2.value)))

end Envado.Full

namespace Envado.Index

open Envado

/-! ### The resolution pipeline and orchestrator of `src/src/index.ts`
(lines 473-548) -/

/-- `validateValue` (`src/src/index.ts` lines 473-504): an absent value
resolves empty if optional and otherwise yields the error `"Required value
is missing"`; a transformer throw is caught and recorded as
`"Transformation failed: ..."` (the interpolated `${error}` prints the
exception as `name: message`) with the original value; validator messages
are collected without throwing (an uncaught validator throw propagates). -/
def validateValue (schema : SchemaDefinition) (value : JSVal) :
    Except JSException FieldRes :=
  match value with
  | .vundef =>
      if schema.optional then .ok ⟨.vundef, []⟩
      else .ok ⟨.vundef, ["Required value is missing"]⟩
  | v =>
      match runTransformers schema.transformers v with
      | .error e =>
          .ok ⟨v, ["Transformation failed: " ++ e.name ++ ": " ++ e.message]⟩
      | .ok cv =>
          match runValidators schema.validators cv with
          | .error e => .error e
          | .ok errors => .ok ⟨cv, errors⟩

/-- The `key: message` lines one field contributes to the aggregate message
(empty when the field resolves without messages or its resolution
throws). -/
def fieldMessages (env : String → JSVal) (p : String × SchemaDefinition) :
    List String :=
  match validateValue p.2 (env p.1) with
  | .ok r => r.errors.map (fun e => p.1 ++ ": " ++ e)
  | .error _ => []

/-- All `key: message` lines of a schema map against a raw source, in
declaration order. -/
def errorLines (fields : List (String × SchemaDefinition))
    (env : String → JSVal) : List String :=
  (fields.map (fieldMessages env)).flatten

/-- One iteration of `parse`'s `map` callback: run `validateValue` on the
field's raw value (`env[key]`) and pair the result with the key; an
uncaught throw propagates. -/
def parseOne (env : String → JSVal) (p : String × SchemaDefinition) :
    Except JSException (String × FieldRes) :=
  match validateValue p.2 (env p.1) with
  | .error e => .error e
  | .ok r => .ok (p.1, r)

/-- The field outcome under the assumption that resolution does not throw
(the throwing case is mapped to the inhabitant and never reached when the
assumption holds). -/
def fieldOutcome (env : String → JSVal) (p : String × SchemaDefinition) :
    String × FieldRes :=
  (p.1, match validateValue p.2 (env p.1) with
        | .ok r => r
        | .error _ => default)

/-- `parse` (`src/src/index.ts` lines 522-546): resolve every declared
field, batch every field's error list (prefixed with the field name) and
throw one aggregate `Error` when any field carried errors; otherwise
assemble the typed result object. -/
def parse (fields : List (String × SchemaDefinition)) (env : String → JSVal) :
    Except JSException (List (String × JSVal)) :=
  match mapEntries (parseOne env) fields with
  | .error e => .error e
  | .ok results =>
      let errs := ((results.filter (fun kr => kr.2.errors.length > 0)).map
        (fun kr => kr.2.errors.map (fun e => kr.1 ++ ": " ++ e))).flatten
      if errs.length > 0 then
        .error ⟨"Error", "Environment validation failed:\n" ++
          String.intercalate ("\n") errs⟩
      else .ok (results.map (fun kr => (kr.1, kr.2.value)))

/-- JavaScript property access on the parsed result object: `undefined`
when the key is absent. -/
def jsGet (o : List (String × JSVal)) (k : String) : JSVal :=
  match o.lookup k with
  | some v => v
  | none => (.vundef)

/-- The enriched configuration object (`ExtendedEnvSchema`): the parsed
fields plus the derived environment flags and the raw pass-through under
the misspelled key `enviroment`. -/
structure ExtendedEnv where
  base : List (String × JSVal)
  isDev : Bool
  isDevelopment : Bool
  isProd : Bool
  isProduction : Bool
  isTest : Bool
  isStaging : Bool
  isLocal : Bool
  enviroment : JSVal

/-- Strict equality between a runtime value and a string literal. -/
def jsStrictEqStr (v : JSVal) (s : String) : Bool :=
  match v with
  | .vstr t => t = s
  | _ => false

/-- `addEnvDerivedProperties` (`src/src/index.ts` lines 561-577): read
`parsedEnv.NODE_ENV`, compare it against each recognized environment name
and spread the result with the seven boolean flags and the `enviroment`
pass-through. -/
def addEnvDerivedProperties (parsedEnv : List (String × JSVal)) : ExtendedEnv :=
  let nodeEnv := jsGet parsedEnv "NODE_ENV"
  { base := parsedEnv
    isDev := jsStrictEqStr nodeEnv "development"
    isDevelopment := jsStrictEqStr nodeEnv "development"
    isProd := jsStrictEqStr nodeEnv "production"
    isProduction := jsStrictEqStr nodeEnv "production"
    isTest := jsStrictEqStr nodeEnv "test"
    isStaging := jsStrictEqStr nodeEnv "staging"
    isLocal := jsStrictEqStr nodeEnv "local"
    enviroment := nodeEnv }

end Envado.Index

namespace Envado

/-! ### Concrete schemas and raw sources used to instantiate the theorems -/

/-- A number schema with default `5` refined by
`.transform(() => 6)` — a legitimate refinement chain
(`number({default: 5}).transform(...)`). -/
def demoDefaultSchema : SchemaDefinition :=
  schemaTransform (numberInitial (some 5)) (fun _ => .ok (.vnum 6))

/-- A raw source holding only `A = "hello"`. -/
def demoMissingEnv : String → Option JSVal :=
  fun k => if k = "A" then some (.vstr "hello") else none

/-- A raw source holding `A = "hello"` and the unparseable boolean token
`B = "maybe"`. -/
def demoBooleanEnv : String → Option JSVal :=
  fun k =>
    if k = "A" then some (.vstr "hello")
    else if k = "B" then some (.vstr "maybe")
    else none

/-- A raw source with two out-of-range port values. -/
def demoTwoInvalidEnv : String → JSVal :=
  fun k =>
    if k = "P" then .vstr "70000"
    else if k = "Q" then .vstr "0"
    else .vundef

end Envado

namespace Envado

/-! ### Helper lemmas -/

/-- When no validator throws, `runValidators` succeeds with exactly the
ordered list of all non-empty messages. -/
theorem runValidators_eq_allMessages (vs : List Validator) (v : JSVal)
    (h : ∀ f ∈ vs, ∃ r, f v = Except.ok r) :
    runValidators vs v = .ok (allMessages vs v) := by
  induction vs with
  | nil => rfl
  | cons f fs ih =>
      obtain ⟨r, hr⟩ := h f (List.mem_cons_self f fs)
      have ih2 := ih (fun g hg => h g (List.mem_cons_of_mem f hg))
      simp only [runValidators, hr, ih2, allMessages, List.filterMap_cons]
      cases r with
      | none => simp [allMessages]
      | some m =>
          by_cases hm : m = "" <;> simp [hm, allMessages]

/-- Appending transformer lists composes their sequential runs. -/
theorem runTransformers_append (ts us : List Transformer) (v : JSVal) :
    runTransformers (ts ++ us) v =
      match runTransformers ts v with
      | .error e => .error e
      | .ok w => runTransformers us w := by
  induction ts generalizing v with
  | nil => rfl
  | cons t ts ih =>
      simp only [List.cons_append, runTransformers]
      cases t v <;> simp [ih]

/-- A throwing entry in the middle of a JavaScript `map` aborts the whole
map, whatever follows it. -/
theorem mapEntries_error_mid {α β ε : Type} (f : α → Except ε β)
    (pre post : List α) (a : α) (e : ε) (rs : List β)
    (h1 : mapEntries f pre = .ok rs) (h2 : f a = .error e) :
    mapEntries f (pre ++ a :: post) = .error e := by
  induction pre generalizing rs with
  | nil => simp [mapEntries, h2]
  | cons x xs ih =>
      simp only [mapEntries, List.cons_append] at h1 ⊢
      cases hx : f x with
      | error e2 => rw [hx] at h1; exact absurd h1 (by simp)
      | ok b =>
          rw [hx] at h1
          cases hxs : mapEntries f xs with
          | error e2 => rw [hxs] at h1; exact absurd h1 (by simp)
          | ok bs => simp only [List.append_eq, ih bs hxs]

/-- A `map` whose callback succeeds everywhere is an ordinary `List.map`. -/
theorem mapEntries_ok_map {α β ε : Type} (f : α → Except ε β) (g : α → β)
    (l : List α) (h : ∀ a ∈ l, f a = .ok (g a)) :
    mapEntries f l = .ok (l.map g) := by
  induction l with
  | nil => rfl
  | cons a as ih =>
      simp only [mapEntries, List.map_cons, h a (List.mem_cons_self a as),
        ih (fun b hb => h b (List.mem_cons_of_mem a hb))]

/-- Entries mapped to the empty list can be filtered away without changing
the flattening. -/
theorem flatten_filter_of_nil {α : Type} (p : α → Bool) (g : α → List String)
    (l : List α) (h : ∀ a ∈ l, p a = false → g a = []) :
    ((l.filter p).map g).flatten = (l.map g).flatten := by
  induction l with
  | nil => rfl
  | cons a as ih =>
      have ih2 := ih (fun b hb => h b (List.mem_cons_of_mem a hb))
      by_cases hp : p a
      · simp [List.filter_cons, hp, ih2]
      · have hga : g a = [] :=
          h a (List.mem_cons_self a as) (by simpa using hp)
        simp [List.filter_cons, hp, ih2, hga]

/-! ### Claim C8 -/

/-- C8: for an array schema with the default comma separator, raw
`"a, b ,c"` resolves to the trimmed array `["a","b","c"]`; for an array
schema refined with `withSeparator("|")`, raw `"a|b"` resolves to
`["a","b"]`. -/
theorem claim8_array_separators :
    Full.validateValue (Full.arrayInitial {}) (.vstr "a, b ,c") "ITEMS" =
      .ok ⟨.varr [.vstr "a", .vstr "b", .vstr "c"], []⟩ ∧
    Full.validateValue (Full.arrayWithSeparator {} "|") (.vstr "a|b") "ITEMS" =
      .ok ⟨.varr [.vstr "a", .vstr "b"], []⟩ :=
  ⟨rfl, rfl⟩

/-! ### Claim C9 -/

/-- C9 counterexample: the claim lists `isProduction` among the flags that
must be `false` when `NODE_ENV = "production"`, but enrichment computes
`isProduction` by the same equality as `isProd`, so it is `true`. -/
theorem claim9_counterexample :
    ¬ ((Index.addEnvDerivedProperties
        [("NODE_ENV", JSVal.vstr "production")]).isProduction = false) := by
  decide

/-- C9 (amended): for a parsed configuration whose `NODE_ENV` field equals
`"production"`, enrichment yields `isProd = true` and `isProduction = true`,
all remaining flags (`isDev`, `isDevelopment`, `isTest`, `isStaging`,
`isLocal`) `false`, copies the value under the misspelled key `enviroment`,
preserves the parsed fields, and (being a total function) never fails. -/
theorem claim9_production_flags (parsedEnv : List (String × JSVal))
    (h : Index.jsGet parsedEnv "NODE_ENV" = .vstr "production") :
    (Index.addEnvDerivedProperties parsedEnv).isProd = true ∧
    (Index.addEnvDerivedProperties parsedEnv).isProduction = true ∧
    (Index.addEnvDerivedProperties parsedEnv).isDev = false ∧
    (Index.addEnvDerivedProperties parsedEnv).isDevelopment = false ∧
    (Index.addEnvDerivedProperties parsedEnv).isTest = false ∧
    (Index.addEnvDerivedProperties parsedEnv).isStaging = false ∧
    (Index.addEnvDerivedProperties parsedEnv).isLocal = false ∧
    (Index.addEnvDerivedProperties parsedEnv).enviroment = .vstr "production" ∧
    (Index.addEnvDerivedProperties parsedEnv).base = parsedEnv := by
  simp [Index.addEnvDerivedProperties, h, Index.jsStrictEqStr]

/-- C9 witness: the amended theorem applied to the concrete configuration
`NODE_ENV = "production"`. -/
theorem claim9_production_flags_witness :
    (Index.addEnvDerivedProperties
      [("NODE_ENV", JSVal.vstr "production")]).isProd = true ∧
    (Index.addEnvDerivedProperties
      [("NODE_ENV", JSVal.vstr "production")]).enviroment =
        .vstr "production" :=
  ⟨(claim9_production_flags [("NODE_ENV", JSVal.vstr "production")] rfl).1,
   (claim9_production_flags [("NODE_ENV", JSVal.vstr "production")]
     rfl).2.2.2.2.2.2.2.1⟩

end Envado

namespace Envado

/-! ### Claim C10 -/

/-- C10: the base type-check validator installed by the `string()` factory
of `src/src/index.ts` never returns an error message for a string input
(every string trims to a string, so `typeof value.trim() !== "string"` is
false), throws for every modelled value lacking a `trim` method, and hence
on raw sources mapping names to optional strings the `"Expected string"`
branch is unreachable: resolution of the base string schema yields either
no error or only `"Required value is missing"`. -/
theorem claim10_string_branch_unreachable :
    (∀ s, Index.stringBaseValidator (.vstr s) = .ok none) ∧
    (∀ q, ∃ e, Index.stringBaseValidator (.vnum q) = .error e) ∧
    (∃ e, Index.stringBaseValidator .vnan = .error e) ∧
    (∀ b, ∃ e, Index.stringBaseValidator (.vbool b) = .error e) ∧
    (∀ xs, ∃ e, Index.stringBaseValidator (.varr xs) = .error e) ∧
    (∀ fs, ∃ e, Index.stringBaseValidator (.vobj fs) = .error e) ∧
    (∃ e, Index.stringBaseValidator .vnull = .error e) ∧
    (∃ e, Index.stringBaseValidator .vundef = .error e) ∧
    (∀ ro : Option String,
      Index.validateValue Index.stringInitial
          (match ro with | some s => .vstr s | none => .vundef) =
        .ok ⟨(match ro with | some s => .vstr s | none => .vundef),
             (match ro with
              | some _ => []
              | none => ["Required value is missing"])⟩) := by
  refine ⟨fun s => rfl, fun q => ⟨_, rfl⟩, ⟨_, rfl⟩, fun b => ⟨_, rfl⟩,
    fun xs => ⟨_, rfl⟩, fun fs => ⟨_, rfl⟩, ⟨_, rfl⟩, ⟨_, rfl⟩, fun ro => ?_⟩
  cases ro <;> rfl

/-! ### Claim C1 -/

/-- C1 counterexample: a schema with default `5` whose transformer chain
maps every input to `6`.  Resolving the absent raw value yields `6`, not
the default `5`, so resolution does not substitute exactly the default and
does run transformers (and validators) on it. -/
theorem claim1_counterexample :
    demoDefaultSchema.default = some (.vnum 5) ∧
    Full.validateValue demoDefaultSchema (.vundef) ("PORT") =
      .ok ⟨.vnum 6, []⟩ ∧
    JSVal.vnum 6 ≠ JSVal.vnum 5 := by
  refine ⟨rfl, rfl, ?_⟩
  simp only [ne_eq, JSVal.vnum.injEq]
  norm_num

/-- C1 (amended): when the raw value is absent and a default exists, the
default is substituted as the working value and then flows through the
same transformer / validator pipeline as a present raw value
(`resolvePresent`); defaults are not exempt from transformation or
validation. -/
theorem claim1_default_runs_pipeline (schema : SchemaDefinition)
    (name : String) (d : JSVal) (hd : schema.default = some d)
    (hne : d ≠ JSVal.vundef) :
    Full.validateValue schema .vundef name = Full.resolvePresent schema d name := by
  unfold Full.validateValue
  rw [hd]
  cases d
  case vundef => exact absurd rfl hne
  all_goals rfl

/-- C1 witness: the amended theorem applied to the concrete default-carrying
schema. -/
theorem claim1_default_runs_pipeline_witness :
    Full.validateValue demoDefaultSchema (.vundef) ("PORT") =
      Full.resolvePresent demoDefaultSchema (.vnum 5) "PORT" :=
  claim1_default_runs_pipeline demoDefaultSchema "PORT" (.vnum 5) rfl nofun

end Envado

namespace Envado

/-! ### Claim C6 -/

/-- C6 counterexample: `withSeparator("|")` does not extend the base array
schema's transformer list by appending — it replaces it.  Both lists have
length one, and the two single transformers disagree at the input
`"a,b"` (the base transformer splits on the comma, the new one does not),
so the new list is not the old list extended by any suffix. -/
theorem claim6_counterexample :
    ¬ ∃ l, (Full.arrayWithSeparator {} "|").transformers =
        (Full.arrayInitial {}).transformers ++ l := by
  rintro ⟨l, h⟩
  cases l with
  | cons x xs =>
      have hlen := congrArg List.length h
      simp [Full.arrayWithSeparator, Full.arrayInitial] at hlen
  | nil =>
      rw [List.append_nil] at h
      simp only [Full.arrayWithSeparator, Full.arrayInitial,
        List.cons.injEq, and_true] at h
      have h1 : Full.withSeparatorTransformer "|" true (.vstr "a,b") =
          .ok (.varr [.vstr "a,b"]) := rfl
      have h2 : Full.arrayBaseTransformer (Full.sepOf {}) (Full.trimOf {})
          (.vstr "a,b") = .ok (.varr [.vstr "a", .vstr "b"]) := rfl
      rw [h] at h1
      rw [h2] at h1
      simp at h1

/-- C6 (amended): every refinement operation other than `withSeparator`
(`optional`, `custom`, `transform`, `min`, `max`, `oneOf`, `url`, `email`,
`port`, `items`, `strict`, `commaSeparated`) returns a new definition whose
validator and transformer lists extend the invoked definition's lists by
appending; `withSeparator`, by contrast, replaces the transformer list with
the single custom-separator transformer.  (Definitions are immutable
records, so the invoked definition itself is never modified.) -/
theorem claim6_append_except_withSeparator :
    (∀ schema : SchemaDefinition,
      (schemaOptional schema).validators = schema.validators ∧
      (schemaOptional schema).transformers = schema.transformers) ∧
    (∀ (schema : SchemaDefinition) (v : Validator),
      (schemaCustom schema v).validators = schema.validators ++ [v] ∧
      (schemaCustom schema v).transformers = schema.transformers) ∧
    (∀ (schema : SchemaDefinition) (t : Transformer),
      (schemaTransform schema t).transformers = schema.transformers ++ [t] ∧
      (schemaTransform schema t).validators = schema.validators) ∧
    (∀ dflt values, (Full.stringOneOf dflt values).validators =
      (Full.stringInitial dflt).validators ++ [Full.oneOfValidator values]) ∧
    (∀ dflt, (Full.stringUrl dflt).validators =
      (Full.stringInitial dflt).validators ++ [Full.urlValidator]) ∧
    (∀ dflt len, (Full.stringMin dflt len).validators =
      (Full.stringInitial dflt).validators ++ [Full.stringMinValidator len]) ∧
    (∀ dflt len, (Full.stringMax dflt len).validators =
      (Full.stringInitial dflt).validators ++ [Full.stringMaxValidator len]) ∧
    (∀ dflt, (Full.stringEmail dflt).validators =
        (Full.stringInitial dflt).validators ++ [Full.emailValidator] ∧
      (Full.stringEmail dflt).transformers =
        (Full.stringInitial dflt).transformers ++ [Full.trimTransformer]) ∧
    (∀ dflt m, (numberMin dflt m).validators =
      (numberInitial dflt).validators ++ [numberMinValidator m]) ∧
    (∀ dflt m, (numberMax dflt m).validators =
      (numberInitial dflt).validators ++ [numberMaxValidator m]) ∧
    (∀ dflt, (numberPort dflt).validators =
      (numberInitial dflt).validators ++ [portValidator]) ∧
    (∀ (opts : Full.ArrayOptions) (itemSchema : SchemaDefinition),
      (Full.arrayItems opts itemSchema).validators =
        (Full.arrayInitial opts).validators ++ [Full.validateItems itemSchema]) ∧
    (∀ (opts : Full.ArrayOptions) (m : Nat),
      (Full.arrayMin opts m).validators =
        (Full.arrayInitial opts).validators ++ [Full.arrayMinValidator m]) ∧
    (∀ (opts : Full.ArrayOptions) (m : Nat),
      (Full.arrayMax opts m).validators =
        (Full.arrayInitial opts).validators ++ [Full.arrayMaxValidator m]) ∧
    (∀ (opts : Full.ArrayOptions) (sep2 : Option String) (trim2 : Option Bool),
      (Full.arrayCommaSeparated opts sep2 trim2).transformers =
        (Full.arrayInitial opts).transformers ++
          [Full.commaSepTransformer opts sep2 trim2]) ∧
    (∀ (nested : List (String × SchemaDefinition)) (dflt : Option JSVal),
      (Full.objectStrict nested dflt).validators =
        (Full.objectInitial dflt).validators ++ [Full.strictValidator nested]) ∧
    (∀ (opts : Full.ArrayOptions) (sep : String) (trimItems : Bool),
      (Full.arrayWithSeparator opts sep trimItems).transformers =
        [Full.withSeparatorTransformer sep trimItems]) :=
  ⟨fun _ => ⟨rfl, rfl⟩, fun _ _ => ⟨rfl, rfl⟩, fun _ _ => ⟨rfl, rfl⟩,
   fun _ _ => rfl, fun _ => rfl, fun _ _ => rfl, fun _ _ => rfl,
   fun _ => ⟨rfl, rfl⟩, fun _ _ => rfl, fun _ _ => rfl, fun _ => rfl,
   fun _ _ => rfl, fun _ _ => rfl, fun _ _ => rfl, fun _ _ _ => rfl,
   fun _ _ => rfl, fun _ _ _ => rfl⟩

end Envado

namespace Envado

/-! ### Claim C2 -/

/-- C2: if a declared field's raw value is absent, the field is not
optional and has no default, and every field declared before it resolves
without throwing, then orchestration throws
`MissingEnvVariableError` naming that field — whatever fields are declared
after it (they are never evaluated). -/
theorem claim2_missing_aborts (pre post : List (String × SchemaDefinition))
    (key : String) (schema : SchemaDefinition) (env : String → Option JSVal)
    (hpre : ∃ rs, mapEntries (Full.parseField env) pre = .ok rs)
    (habsent : Full.getRaw env key = .vundef)
    (hopt : schema.optional = false)
    (hdflt : schema.default = none) :
    Full.parse (pre ++ (key, schema) :: post) env =
      .error (.missingEnvVariable key) := by
  obtain ⟨rs, hrs⟩ := hpre
  have hfield : Full.parseField env (key, schema) =
      .error (.missingEnvVariable key) := by
    simp [Full.parseField, Full.validateValue, habsent, hdflt, hopt]
  have habort := mapEntries_error_mid (Full.parseField env) pre post
    (key, schema) _ rs hrs hfield
  unfold Full.parse
  rw [habort]

/-- C2 witness: schema map `A` (resolves), `B` (absent, required, no
default), `C` (never reached); the raw source holds only `A`. -/
theorem claim2_missing_aborts_witness :
    Full.parse ([("A", Full.stringInitial none)] ++
        ("B", Full.stringInitial none) :: [("C", Full.booleanInitial none)])
      demoMissingEnv = .error (.missingEnvVariable "B") :=
  claim2_missing_aborts [("A", Full.stringInitial none)]
    [("C", Full.booleanInitial none)] "B" (Full.stringInitial none)
    demoMissingEnv ⟨_, rfl⟩ rfl rfl rfl

/-! ### Claim C3 -/

/-- C3: if a field's transformer chain throws on its present raw value and
every field declared before it resolves without throwing, orchestration
throws `TransformationError` carrying the field name and the thrown
message — whatever fields are declared after it; the failure is never
batched with other fields' validation errors. -/
theorem claim3_transformation_aborts
    (pre post : List (String × SchemaDefinition)) (key : String)
    (schema : SchemaDefinition) (env : String → Option JSVal) (s : String)
    (e : JSException)
    (hpre : ∃ rs, mapEntries (Full.parseField env) pre = .ok rs)
    (hraw : Full.getRaw env key = .vstr s)
    (ht : runTransformers schema.transformers (.vstr s) = .error e) :
    Full.parse (pre ++ (key, schema) :: post) env =
      .error (.transformationError key e.message) := by
  obtain ⟨rs, hrs⟩ := hpre
  have hfield : Full.parseField env (key, schema) =
      .error (.transformationError key e.message) := by
    simp [Full.parseField, Full.validateValue, Full.resolvePresent, hraw, ht]
  have habort := mapEntries_error_mid (Full.parseField env) pre post
    (key, schema) _ rs hrs hfield
  unfold Full.parse
  rw [habort]

/-- C3 witness: the boolean field `B` receives the unparseable token
`"maybe"`; orchestration aborts with the transformation failure carrying
`B` and the thrown message, and the trailing field `C` is never reached. -/
theorem claim3_transformation_aborts_witness :
    Full.parse ([("A", Full.stringInitial none)] ++
        ("B", Full.booleanInitial none) :: [("C", Full.stringInitial none)])
      demoBooleanEnv = .error (.transformationError "B"
        "Invalid environment variable \"\": Invalid boolean value: maybe") :=
  claim3_transformation_aborts [("A", Full.stringInitial none)]
    [("C", Full.stringInitial none)] "B" (Full.booleanInitial none)
    demoBooleanEnv "maybe"
    ⟨"InvalidEnvVariableError",
      "Invalid environment variable \"\": Invalid boolean value: maybe"⟩
    ⟨_, rfl⟩ rfl rfl

end Envado

namespace Envado

/-! ### Claim C5 -/

/-- C5: for a present raw value, resolution applies the transformers in
declared order (appending a transformer composes it after the existing
chain, each consuming the previous output) and then applies every validator
to the final transformed value, collecting every non-empty message in
declared order (`allMessages`) — no validator is skipped because an earlier
one reported an error. -/
theorem claim5_transform_then_validate :
    (∀ (schema : SchemaDefinition) (v v2 : JSVal),
      v ≠ JSVal.vundef →
      runTransformers schema.transformers v = .ok v2 →
      (∀ f ∈ schema.validators, ∃ r, f v2 = Except.ok r) →
      Index.validateValue schema v =
        .ok ⟨v2, allMessages schema.validators v2⟩) ∧
    (∀ (ts : List Transformer) (t : Transformer) (v : JSVal),
      runTransformers (ts ++ [t]) v =
        match runTransformers ts v with
        | .error e => .error e
        | .ok w => t w) := by
  constructor
  · intro schema v v2 hv ht hval
    have hrv := runValidators_eq_allMessages schema.validators v2 hval
    cases v
    case vundef => exact absurd rfl hv
    all_goals simp [Index.validateValue, ht, hrv]
  · intro ts t v
    rw [runTransformers_append]
    cases runTransformers ts v with
    | error e => rfl
    | ok w =>
        simp only [runTransformers]
        cases t w <;> rfl

/-- C5 witness: the port-refined number schema on the present raw value
`"443"`: the base transformer produces `443` and both validators run on it
without producing messages. -/
theorem claim5_transform_then_validate_witness :
    Index.validateValue (numberPort none) (.vstr "443") =
      .ok ⟨.vnum 443, []⟩ :=
  claim5_transform_then_validate.1 (numberPort none) (.vstr "443")
    (.vnum 443) nofun rfl
    (by
      intro f hf
      fin_cases hf <;> exact ⟨_, rfl⟩)

end Envado

namespace Envado

/-- Evaluation of the port-refined number schema of `src/src/index.ts` on a
present raw string: the base transformer coerces the string; on `NaN` the
base validator reports, and otherwise the port validator checks the
1-65535 range (with no integrality requirement). -/
theorem portSchema_eval (s : String) :
    Index.validateValue (numberPort none) (.vstr s) =
      match jsStringToNumber s with
      | none => .ok ⟨.vnan, ["Expected number, but got number"]⟩
      | some q => .ok ⟨.vnum q,
          if q < 1 ∨ (65535 : Rat) < q then ["Invalid port number"] else []⟩ := by
  cases hq : jsStringToNumber s with
  | none =>
      simp [Index.validateValue, numberPort, numberInitial, runTransformers,
        numberBaseTransformer, hq, runValidators, numberBaseValidator,
        portValidator, jsLt, jsGt, jsTypeof]
  | some q =>
      by_cases h1 : q < 1
      · simp [Index.validateValue, numberPort, numberInitial, runTransformers,
          numberBaseTransformer, hq, runValidators, numberBaseValidator,
          portValidator, jsLt, jsGt, jsTypeof, h1]
      · by_cases h2 : (65535 : Rat) < q
        · simp [Index.validateValue, numberPort, numberInitial,
            runTransformers, numberBaseTransformer, hq, runValidators,
            numberBaseValidator, portValidator, jsLt, jsGt, jsTypeof, h1, h2]
        · simp [Index.validateValue, numberPort, numberInitial,
            runTransformers, numberBaseTransformer, hq, runValidators,
            numberBaseValidator, portValidator, jsLt, jsGt, jsTypeof, h1, h2]

end Envado

namespace Envado

/-! ### Claim C7 -/

/-- C7 counterexample: the raw value `"2.5"` resolves successfully through
`number().port()` (no validator message), yet the transformed value `5/2`
is not an integer — the port validator checks only the 1-65535 range, not
integrality. -/
theorem claim7_counterexample :
    Index.validateValue (numberPort none) (.vstr "2.5") =
      .ok ⟨.vnum (mkRat 25 10), []⟩ ∧
    (mkRat 25 10).den ≠ 1 :=
  ⟨rfl, by decide⟩

/-- C7 (amended): for a number schema refined with `port()`, resolution of
a present raw string succeeds (empty error list) exactly when the string
coerces to a number `q` (not `NaN`) with `1 ≤ q ≤ 65535` — integrality is
not required; in particular `"70000"` yields the validation message
`"Invalid port number"` while `"443"` resolves to the number `443`. -/
theorem claim7_port_range :
    (∀ s : String,
      (∃ r, Index.validateValue (numberPort none) (.vstr s) = .ok r ∧
        r.errors = []) ↔
      (∃ q, jsStringToNumber s = some q ∧ 1 ≤ q ∧ q ≤ 65535)) ∧
    Index.validateValue (numberPort none) (.vstr "443") =
      .ok ⟨.vnum 443, []⟩ ∧
    Index.validateValue (numberPort none) (.vstr "70000") =
      .ok ⟨.vnum 70000, ["Invalid port number"]⟩ := by
  refine ⟨fun s => ?_, rfl, rfl⟩
  rw [portSchema_eval s]
  cases hq : jsStringToNumber s with
  | none => simp
  | some q =>
      dsimp only
      by_cases hc : q < 1 ∨ (65535 : Rat) < q
      · rw [if_pos hc]
        constructor
        · rintro ⟨r, hr, he⟩
          injection hr with h
          rw [← h] at he
          simp at he
        · rintro ⟨q2, hq2, hle, hge⟩
          injection hq2 with h
          subst h
          cases hc with
          | inl hlt => exact absurd hle (not_le.mpr hlt)
          | inr hgt => exact absurd hge (not_le.mpr hgt)
      · rw [if_neg hc]
        push_neg at hc
        constructor
        · intro _
          exact ⟨q, rfl, hc.1, hc.2⟩
        · intro _
          exact ⟨⟨.vnum q, []⟩, rfl, rfl⟩

/-- C7 witness: the amended theorem's concrete `"443"` component. -/
theorem claim7_port_range_witness :
    Index.validateValue (numberPort none) (.vstr "443") =
      .ok ⟨.vnum 443, []⟩ :=
  claim7_port_range.2.1

end Envado

namespace Envado

/-- The `key: message` lines computed from a field's outcome agree with
`fieldMessages` (in the throwing case both are empty). -/
theorem fieldMessages_eq_outcome (env : String → JSVal)
    (p : String × SchemaDefinition) :
    (Index.fieldOutcome env p).2.errors.map
      (fun e => (Index.fieldOutcome env p).1 ++ ": " ++ e) =
    Index.fieldMessages env p := by
  unfold Index.fieldOutcome Index.fieldMessages
  cases h : Index.validateValue p.2 (env p.1) <;> simp [h]
  rfl

/-! ### Claim C4 -/

/-- C4: on a schema map with no missing raw values, no transformation
failures and no validator throw, where two (or more) distinct fields carry
validator messages, `parse` of `src/src/index.ts` resolves every declared
field and throws exactly one aggregate failure whose message joins every
field's `key: message` lines (`errorLines`); in particular every invalid
field's every message, prefixed with its field name, appears in the
aggregate. -/
theorem claim4_validation_batched (fields : List (String × SchemaDefinition))
    (env : String → JSVal)
    (hok : ∀ p ∈ fields, ∃ r, Index.validateValue p.2 (env p.1) = .ok r)
    (hpresent : ∀ p ∈ fields, env p.1 ≠ JSVal.vundef)
    (htrans : ∀ p ∈ fields, ∃ w,
      runTransformers p.2.transformers (env p.1) = .ok w)
    (htwo : ∃ i j : Fin fields.length, i ≠ j ∧
      Index.fieldMessages env (fields.get i) ≠ [] ∧
      Index.fieldMessages env (fields.get j) ≠ []) :
    Index.parse fields env = .error ⟨"Error",
      "Environment validation failed:\n" ++
        String.intercalate "\n" (Index.errorLines fields env)⟩ ∧
    ∀ p ∈ fields, ∀ r, Index.validateValue p.2 (env p.1) = .ok r →
      ∀ m ∈ r.errors, (p.1 ++ ": " ++ m) ∈ Index.errorLines fields env := by
  have hmap : mapEntries (Index.parseOne env) fields =
      .ok (fields.map (Index.fieldOutcome env)) := by
    apply mapEntries_ok_map
    intro p hp
    obtain ⟨r, hr⟩ := hok p hp
    simp [Index.parseOne, Index.fieldOutcome, hr]
  have hmem : ∀ p ∈ fields, ∀ m ∈ Index.fieldMessages env p,
      m ∈ Index.errorLines fields env := by
    intro p hp m hm
    unfold Index.errorLines
    exact List.mem_flatten.mpr ⟨_, List.mem_map_of_mem _ hp, hm⟩
  have herrs :
      (((fields.map (Index.fieldOutcome env)).filter
          (fun kr => kr.2.errors.length > 0)).map
        (fun kr => kr.2.errors.map (fun e => kr.1 ++ ": " ++ e))).flatten =
      Index.errorLines fields env := by
    rw [flatten_filter_of_nil]
    · rw [List.map_map]
      unfold Index.errorLines
      exact congrArg List.flatten
        (List.map_congr_left (fun p _ => fieldMessages_eq_outcome env p))
    · intro kr hkr hlen
      have hnil : kr.2.errors = [] := by
        cases he : kr.2.errors with
        | nil => rfl
        | cons a as => rw [he] at hlen; simp at hlen
      simp [hnil]
  obtain ⟨i, j, hij, hi, hj⟩ := htwo
  have hinel : Index.errorLines fields env ≠ [] := by
    obtain ⟨m, hm⟩ := List.exists_mem_of_ne_nil _ hi
    exact List.ne_nil_of_mem
      (hmem _ (fields.get_mem i.1 i.2) m hm)
  have hpos : 0 < (Index.errorLines fields env).length :=
    List.length_pos.mpr hinel
  constructor
  · unfold Index.parse
    rw [hmap]
    dsimp only
    rw [herrs, if_pos hpos]
  · intro p hp r hr m hm
    apply hmem p hp
    unfold Index.fieldMessages
    rw [hr]
    exact List.mem_map_of_mem _ hm

end Envado

namespace Envado

/-- C4 witness: two port fields, `P = "70000"` and `Q = "0"`, both out of
range; orchestration resolves both and throws the single aggregate failure
listing both fields' messages. -/
theorem claim4_validation_batched_witness :
    Index.parse [("P", numberPort none), ("Q", numberPort none)]
      demoTwoInvalidEnv = .error ⟨"Error",
      "Environment validation failed:\n" ++
        "P: Invalid port number\nQ: Invalid port number"⟩ :=
  (claim4_validation_batched
    [("P", numberPort none), ("Q", numberPort none)] demoTwoInvalidEnv
    (by intro p hp; fin_cases hp <;> exact ⟨_, rfl⟩)
    (by intro p hp; fin_cases hp <;> simp [demoTwoInvalidEnv])
    (by intro p hp; fin_cases hp <;> exact ⟨_, rfl⟩)
    ⟨⟨0, by decide⟩, ⟨1, by decide⟩, by decide,
      (List.cons_ne_nil "P: Invalid port number" []),
      (List.cons_ne_nil "Q: Invalid port number" [])⟩).1

end Envado
